import Mathlib

/- Verification of the type-mapper library: a shallow embedding of the
   validation module (severity levels, path-scoped diagnostics, tracking
   contexts, validator-chain combinators) and of the conversion engine
   (alias resolution, per-field validation and transformation, recursive
   array and object instantiation), together with theorems settling the
   specified behaviors. -/

/-- Issue severity levels, mirroring the IssueLevel enum of the source
(info = 0, warn = 1, error = 2). -/
inductive IssueLevel where
  | info
  | warn
  | error
deriving DecidableEq, Repr

/-- Numeric value of a severity, as declared by the source enum. -/
def IssueLevel.toNat : IssueLevel → Nat
  | .info => 0
  | .warn => 1
  | .error => 2

/-- JavaScript truthiness of a severity value: info, being 0, is falsy. -/
def IssueLevel.jsTruthy (l : IssueLevel) : Bool := l.toNat != 0

/-- Untyped JavaScript values.  Numbers are modelled by their integer
fragment, with NaN as a distinguished value. -/
inductive JSValue where
  | null
  | undefined
  | bool (b : Bool)
  | num (n : Int)
  | nan
  | str (s : String)
  | arr (elems : List JSValue)
  | obj (fields : List (String × JSValue))

/-- The typeof operator. -/
def typeofJS : JSValue → String
  | .null => "object"
  | .undefined => "undefined"
  | .bool _ => "boolean"
  | .num _ => "number"
  | .nan => "number"
  | .str _ => "string"
  | .arr _ => "object"
  | .obj _ => "object"

/-- Loose equality with null (value == null): true exactly for null and
undefined. -/
def isNullish : JSValue → Bool
  | .null => true
  | .undefined => true
  | _ => false

/-- JavaScript truthiness of a value. -/
def jsTruthy : JSValue → Bool
  | .null => false
  | .undefined => false
  | .bool b => b
  | .num n => n != 0
  | .nan => false
  | .str s => s != ""
  | .arr _ => true
  | .obj _ => true

/-- An issue as reported to a diagnostics sink: a severity level and a
message.  The path component is attached by the root context at delivery
time. -/
abbrev RawIssue := IssueLevel × String

/-- A validator function of the source, (value, ctx) to void, modelled by
the list of issues it reports to its context, in order, as a function of
the value.  All validators of the library only call the issue-reporting
methods of their context. -/
abbrev Chain := JSValue → List RawIssue

/-- State of a TrackingValidationContext: the maximum severity observed so
far, plus the issues delivered to the wrapped inner sink.  Delivery is a
pure pass-through, so the wrapped sink is modelled by the list of raw
issues it received, in order. -/
structure TrackingValidationContext where
  maximumSeverity : Option IssueLevel
  sink : List RawIssue
deriving DecidableEq

/-- The condition of the source's severity update: the stored maximum is
absent or falsy (info is 0, hence falsy). -/
def sevFalsy : Option IssueLevel → Bool
  | none => true
  | some l => !l.jsTruthy

/-- The comparison level greater-than stored maximum; comparing with an
absent maximum is false (NaN comparison). -/
def sevGt (l : IssueLevel) : Option IssueLevel → Bool
  | none => false
  | some m => decide (m.toNat < l.toNat)

/-- TrackingValidationContext.addIssue: update maximumSeverity when the
stored value is falsy or the new level is greater, then forward the issue
unchanged to the wrapped context. -/
def trackAddIssue (t : TrackingValidationContext) (i : RawIssue) :
    TrackingValidationContext :=
  { maximumSeverity :=
      if sevFalsy t.maximumSeverity || sevGt i.1 t.maximumSeverity then some i.1
      else t.maximumSeverity
    sink := t.sink ++ [i] }

/-- Delivering a sequence of issues through a tracking context. -/
def trackRun (t : TrackingValidationContext) (l : List RawIssue) :
    TrackingValidationContext :=
  l.foldl trackAddIssue t

/-- The empty tracking wrapper, as freshly constructed around a caller's
context. -/
def freshTracking : TrackingValidationContext :=
  { maximumSeverity := none, sink := [] }

/-- makeValidatorChain: wraps fn, skipping invocation when ignoreNull is
set and the value is null or undefined. -/
def makeValidatorChain (fn : Chain) (ignoreNull : Bool) : Chain :=
  fun v => if !ignoreNull || !isNullish v then fn v else []

/-- refineValidatorChain: unless skipping for null, run the current chain
against a fresh tracking wrapper over the caller's context, and run the
next stage with the same value and the same wrapper only when the tracked
maximum severity is not error.  The composed chain reports exactly the
issues delivered through the wrapper. -/
def refineValidatorChain (chain next : Chain) (ignoreNull : Bool) : Chain :=
  fun v =>
    if !ignoreNull || !isNullish v then
      let w := trackRun freshTracking (chain v)
      if w.maximumSeverity ≠ some IssueLevel.error then
        (trackRun w (next v)).sink
      else w.sink
    else []

/-- Validator.validateValue: run the whole validations list of a field
against one shared tracking context over the caller's context and return
that context (the source returns its maximumSeverity; its sink holds the
issues delivered onward). -/
def validateValue (validations : List Chain) (value : JSValue) :
    TrackingValidationContext :=
  validations.foldl (fun t f => trackRun t (f value)) freshTracking

/-- Base type check of the isString family: error when the value is not a
string. -/
def isStringCheck : Chain := fun v =>
  if typeofJS v ≠ "string" then
    [(IssueLevel.error, "Expected type string, but found: " ++ typeofJS v)]
  else []

/-- isString(): the base string chain, built without ignoreNull. -/
def isStringChain : Chain := makeValidatorChain isStringCheck false

/-- nullable().isString(): the string type check built with ignoreNull
set (the nullable base chain is discarded by the builder). -/
def nullableIsString : Chain := makeValidatorChain isStringCheck true

/-- Binary maximum of severities under the ordering info, warn, error. -/
def maxSev (a b : IssueLevel) : IssueLevel :=
  if a.toNat ≤ b.toNat then b else a

/-- The maximum of the reported levels of a sequence of issues, none when
no issue was reported.  This is the specification-side description of
what a tracking context records. -/
def specMaxSev (l : List RawIssue) : Option IssueLevel :=
  l.foldl (fun o i => some (match o with | none => i.1 | some m => maxSev m i.1)) none

/- Basic lemmas about tracking contexts. -/

theorem trackAddIssue_sink (t : TrackingValidationContext) (i : RawIssue) :
    (trackAddIssue t i).sink = t.sink ++ [i] := rfl

theorem trackRun_sink (l : List RawIssue) (t : TrackingValidationContext) :
    (trackRun t l).sink = t.sink ++ l := by
  induction l generalizing t with
  | nil => simp [trackRun]
  | cons i rest ih =>
      simp only [trackRun, List.foldl_cons] at *
      rw [ih (trackAddIssue t i)]
      simp [trackAddIssue]

theorem trackAddIssue_max (t : TrackingValidationContext) (i : RawIssue) :
    (trackAddIssue t i).maximumSeverity =
      some (maxSev ((t.maximumSeverity).getD IssueLevel.info) i.1) := by
  rcases t with ⟨m, s⟩
  rcases m with _ | l
  · rcases i with ⟨il, msg⟩
    cases il <;> rfl
  · rcases i with ⟨il, msg⟩
    cases l <;> cases il <;> rfl

theorem trackRun_max (l : List RawIssue) (t : TrackingValidationContext) :
    (trackRun t l).maximumSeverity =
      l.foldl (fun o i => some (maxSev (o.getD IssueLevel.info) i.1))
        t.maximumSeverity := by
  induction l generalizing t with
  | nil => rfl
  | cons i rest ih =>
      simp only [trackRun, List.foldl_cons] at *
      rw [ih (trackAddIssue t i), trackAddIssue_max]

theorem specMaxSev_foldl (l : List RawIssue) :
    specMaxSev l =
      l.foldl (fun o i => some (maxSev (o.getD IssueLevel.info) i.1)) none := by
  unfold specMaxSev
  congr 1
  funext o i
  rcases o with _ | m
  · cases i.1 <;> rfl
  · rfl

theorem trackRun_fresh_max (l : List RawIssue) (s : List RawIssue) :
    (trackRun { maximumSeverity := none, sink := s } l).maximumSeverity =
      specMaxSev l := by
  rw [trackRun_max, specMaxSev_foldl]

theorem maxSev_eq_error_iff (a b : IssueLevel) :
    maxSev a b = IssueLevel.error ↔ a = IssueLevel.error ∨ b = IssueLevel.error := by
  cases a <;> cases b <;> simp [maxSev, IssueLevel.toNat]

theorem specMaxSev_error_aux (l : List RawIssue) (o : Option IssueLevel) :
    (l.foldl (fun o i => some (maxSev (o.getD IssueLevel.info) i.1)) o =
        some IssueLevel.error) ↔
      (o = some IssueLevel.error ∨ ∃ m, (IssueLevel.error, m) ∈ l) := by
  induction l generalizing o with
  | nil => simp
  | cons i rest ih =>
      rcases i with ⟨il, im⟩
      simp only [List.foldl_cons]
      rw [ih]
      have hstep : (some (maxSev (o.getD IssueLevel.info) il) = some IssueLevel.error)
          ↔ (o = some IssueLevel.error ∨ il = IssueLevel.error) := by
        rcases o with _ | m
        · cases il <;> simp [maxSev, IssueLevel.toNat]
        · cases m <;> cases il <;> simp [maxSev, IssueLevel.toNat]
      rw [hstep]
      constructor
      · rintro ((h | h) | ⟨m, hm⟩)
        · exact Or.inl h
        · subst h
          exact Or.inr ⟨im, List.mem_cons_self _ _⟩
        · exact Or.inr ⟨m, List.mem_cons_of_mem _ hm⟩
      · rintro (h | ⟨m, hm⟩)
        · exact Or.inl (Or.inl h)
        · rcases List.mem_cons.mp hm with h | h
          · rcases Prod.mk.injEq .. ▸ h with ⟨h1, h2⟩
            exact Or.inl (Or.inr h1.symm)
          · exact Or.inr ⟨m, h⟩

theorem specMaxSev_eq_error_iff (l : List RawIssue) :
    specMaxSev l = some IssueLevel.error ↔ ∃ m, (IssueLevel.error, m) ∈ l := by
  rw [specMaxSev_foldl, specMaxSev_error_aux]
  simp

/-- A path segment: a field name or alias string, or a numeric index. -/
abbrev Seg := String ⊕ Int

/-- One step of ValidationContext.pathString: a dot precedes a string
segment only when the accumulated string is nonempty; a numeric segment
is rendered as a bracketed index with no separator. -/
def pathStep (s : String) : Seg → String
  | .inl p => if s ≠ "" then s ++ "." ++ p else s ++ p
  | .inr n => s ++ "[" ++ toString n ++ "]"

/-- ValidationContext.pathString: render the current path stack. -/
def pathString (path : List Seg) : String := path.foldl pathStep ""

/-- A recorded validation issue: the path string snapshot taken at issue
time, the severity, and the message. -/
structure ValidationIssue where
  path : String
  level : IssueLevel
  message : String
deriving DecidableEq

/-- Shared mutable state of one convert call: the path stack and the issue
list of the root ValidationContext built over it. -/
structure MapState where
  path : List Seg
  issues : List ValidationIssue
deriving DecidableEq

/-- ValidationContext.addIssue for a batch of raw issues delivered to the
root context: each is recorded with the path string of the current path
stack. -/
def addRawIssues (st : MapState) (l : List RawIssue) : MapState :=
  { st with issues := st.issues ++ l.map (fun i => ⟨pathString st.path, i.1, i.2⟩) }

theorem addRawIssues_path (st : MapState) (l : List RawIssue) :
    (addRawIssues st l).path = st.path := rfl

theorem addRawIssues_nil (st : MapState) : addRawIssues st [] = st := by
  simp [addRawIssues]

/-- String.prototype.split for the dot separator (the source splits each
string alias into dotted parts). -/
def splitDotChars : List Char → List Char → List String
  | [], acc => [String.mk acc.reverse]
  | c :: rest, acc =>
      if c = '.' then String.mk acc.reverse :: splitDotChars rest []
      else splitDotChars rest (c :: acc)

def splitDot (s : String) : List String := splitDotChars s.data []

/-- The Number coercion of a string, restricted to the integer fragment
modelled here: the empty string is 0, an optionally signed digit string is
its value, anything else is NaN (none). -/
def jsNumber (s : String) : Option Int :=
  if s = "" then some 0
  else
    match s.data with
    | '-' :: rest =>
        if rest ≠ [] ∧ rest.all Char.isDigit then
          some (-(Int.ofNat (rest.foldl (fun n c => n * 10 + c.toNat - 48) 0)))
        else none
    | '+' :: rest =>
        if rest ≠ [] ∧ rest.all Char.isDigit then
          some (Int.ofNat (rest.foldl (fun n c => n * 10 + c.toNat - 48) 0))
        else none
    | l =>
        if l.all Char.isDigit then
          some (Int.ofNat (l.foldl (fun n c => n * 10 + c.toNat - 48) 0))
        else none

/-- The in operator: whether the target has the given property.  none
models the TypeError raised when the target is a primitive.  Object keys
are strings, so a numeric key is coerced to its decimal rendering; on
arrays a numeric key is an index-bounds test (of the modelled index
properties only, plus the length property for string keys). -/
def jsIn : Seg → JSValue → Option Bool
  | .inl s, .obj fields => some ((fields.lookup s).isSome)
  | .inr i, .obj fields => some ((fields.lookup (toString i)).isSome)
  | .inl s, .arr _ => some (s == "length")
  | .inr i, .arr elems => some (decide (0 ≤ i ∧ i < (elems.length : Int)))
  | _, _ => none

/-- Property read target[key]; absent keys read as undefined. -/
def jsGetKey : Seg → JSValue → JSValue
  | .inl s, .obj fields => (fields.lookup s).getD .undefined
  | .inr i, .obj fields => (fields.lookup (toString i)).getD .undefined
  | .inl s, .arr elems => if s == "length" then .num elems.length else .undefined
  | .inr i, .arr elems => if 0 ≤ i then elems.getD i.toNat .undefined else .undefined
  | _, _ => .undefined

/-- The dotted-path walk of getProperty: at each part, a null or undefined
current value resolves to not-found; a numeric part is interpreted as an
index; the in test on a primitive raises (none). -/
def getPropertyPath : List String → JSValue → Option (Bool × JSValue)
  | [], current => some (true, current)
  | part :: rest, current =>
      if isNullish current then some (false, .undefined)
      else
        let ixOrName : Seg := match jsNumber part with
          | none => .inl part
          | some i => .inr i
        match jsIn ixOrName current with
        | none => none
        | some true => getPropertyPath rest (jsGetKey ixOrName current)
        | some false => some (false, .undefined)

/-- getProperty: a numeric reference is a direct membership test and read;
a string reference is split on dots and walked. -/
def getProperty : Seg → JSValue → Option (Bool × JSValue)
  | .inr i, data =>
      match jsIn (.inr i) data with
      | none => none
      | some b => some (b, if b then jsGetKey (.inr i) data else .undefined)
  | .inl s, data => getPropertyPath (splitDot s) data

mutual
/-- DecoratedType: the metadata record attached to a target type by the
annotation layer: an optional (possibly sparse) ordered list of parameter
mappings, an optional property-name-to-mapping association in declaration
order, and the two optional duck-typed capability hooks of the
constructed instance, modelled by the issues they report (mapData as a
function of the raw data). -/
inductive TypeDesc : Type where
  | mk (parameters : Option (List (Option MappingMetadata)))
       (properties : Option (List (String × MappingMetadata)))
       (mapDataHook : Option (JSValue → List RawIssue))
       (validateHook : Option (List RawIssue)) : TypeDesc

/-- MappingMetadata: the per-field / per-parameter mapping descriptor. -/
inductive MappingMetadata : Type where
  | mk (aliases : List Seg)
       (preValidationTransform : Option (JSValue → JSValue))
       (validations : List (JSValue → List RawIssue))
       (transform : Option (JSValue → JSValue))
       (mappedAs : Option TypeDesc)
       (isArray : Bool)
       (isRequired : Bool)
       (defaultValue : Option JSValue) : MappingMetadata
end

def TypeDesc.parameters : TypeDesc → Option (List (Option MappingMetadata))
  | .mk p _ _ _ => p

def TypeDesc.properties : TypeDesc → Option (List (String × MappingMetadata))
  | .mk _ p _ _ => p

def TypeDesc.mapDataHook : TypeDesc → Option (JSValue → List RawIssue)
  | .mk _ _ h _ => h

def TypeDesc.validateHook : TypeDesc → Option (List RawIssue)
  | .mk _ _ _ h => h

def MappingMetadata.aliases : MappingMetadata → List Seg
  | .mk a _ _ _ _ _ _ _ => a

def MappingMetadata.preValidationTransform : MappingMetadata → Option (JSValue → JSValue)
  | .mk _ p _ _ _ _ _ _ => p

def MappingMetadata.validations : MappingMetadata → List (JSValue → List RawIssue)
  | .mk _ _ v _ _ _ _ _ => v

def MappingMetadata.transform : MappingMetadata → Option (JSValue → JSValue)
  | .mk _ _ _ t _ _ _ _ => t

def MappingMetadata.mappedAs : MappingMetadata → Option TypeDesc
  | .mk _ _ _ _ m _ _ _ => m

def MappingMetadata.isArray : MappingMetadata → Bool
  | .mk _ _ _ _ _ a _ _ => a

def MappingMetadata.isRequired : MappingMetadata → Bool
  | .mk _ _ _ _ _ _ r _ => r

def MappingMetadata.defaultValue : MappingMetadata → Option JSValue
  | .mk _ _ _ _ _ _ _ d => d

/-- Values produced by the engine: a plain JavaScript value, a constructed
instance (its positional constructor arguments, with none for an unset
slot, and its metadata-driven property assignments in order), or the
array produced by an array-of-nested mapping. -/
inductive RVal : Type where
  | js (v : JSValue)
  | inst (args : List (Option RVal)) (props : List (String × RVal))
  | arrOf (elems : List RVal)

/-- The type of the recursive entry point internalCreateInstance, used to
parameterize each phase of the engine (an Except error models a raised
JavaScript exception aborting the whole conversion). -/
abbrev Recurse := TypeDesc → JSValue → MapState → Except Unit (RVal × MapState)

/-- ifEmpty: an empty (or absent) alias list falls back to the single
given key. -/
def ifEmpty (l : List Seg) (v : Seg) : List Seg :=
  if l.length ≠ 0 then l else [v]

/-- Rendering of a segment in messages. -/
def renderSeg : Seg → String
  | .inl s => s
  | .inr n => toString n

/-- Template rendering of an alias array (JavaScript array toString joins
with commas). -/
def renderAliasList (l : List Seg) : String :=
  String.intercalate "," (l.map renderSeg)

/-- path.join with dots, used by the non-array shape error message. -/
def joinDot (path : List Seg) : String :=
  String.intercalate "." (path.map renderSeg)

/-- The alias loop: the first alias whose lookup reports found wins; a
lookup TypeError propagates. -/
def resolveAliases : List Seg → JSValue → Except Unit (Option (Seg × JSValue))
  | [], _ => .ok none
  | a :: rest, data =>
      match getProperty a data with
      | none => .error ()
      | some (true, v) => .ok (some (a, v))
      | some (false, _) => resolveAliases rest data

/-- The pre-validation transform applied to a located raw value. -/
def preTransformed (m : MappingMetadata) (v : JSValue) : JSValue :=
  match m.preValidationTransform with
  | some f => f v
  | none => v

/-- The post-validation transform. -/
def postTransformed (m : MappingMetadata) (v : JSValue) : JSValue :=
  match m.transform with
  | some f => f v
  | none => v

/-- The validation step of a field: validateValue is invoked only when the
validations list is nonempty (otherwise the result stays undefined and no
issue is delivered). -/
def fieldValidation (m : MappingMetadata) (v : JSValue) : TrackingValidationContext :=
  if m.validations.length ≠ 0 then validateValue m.validations v else freshTracking

/-- mapping each element of an array-of-nested value: the element index is
pushed on the path stack before the element is built and popped after. -/
def mapElems (recurse : Recurse) (c : TypeDesc) :
    List JSValue → Nat → MapState → Except Unit (List RVal × MapState)
  | [], _, st => .ok ([], st)
  | e :: rest, ix, st =>
      match recurse c e { st with path := st.path ++ [.inr (ix : Int)] } with
      | .error u => .error u
      | .ok (r, st1) =>
          match mapElems recurse c rest (ix + 1) { st1 with path := st1.path.dropLast } with
          | .error u => .error u
          | .ok (rs, st2) => .ok (r :: rs, st2)

/-- handleRecursiveMapping: in array mode, a null or undefined value falls
through and yields undefined; a non-array value yields undefined after
one shape-error diagnostic; an array is mapped element-wise.  Otherwise
the single value is built under the current path. -/
def handleRecursiveMapping (recurse : Recurse) (c : TypeDesc) (isArray : Bool)
    (data : JSValue) (st : MapState) : Except Unit (RVal × MapState) :=
  if isArray then
    if !isNullish data then
      match data with
      | .arr elems =>
          match mapElems recurse c elems 0 st with
          | .error u => .error u
          | .ok (rs, st1) => .ok (.arrOf rs, st1)
      | _ =>
          .ok (.js .undefined,
            addRawIssues st
              [(IssueLevel.error,
                "Expected an array but found a non array type for property " ++
                  joinDot st.path)])
    else .ok (.js .undefined, st)
  else recurse c data st

/-- The body of the per-alias found branch shared by the parameter and
property passes: push the resolved segment, apply the pre-validation
transform, validate, and when the tracked severity is not error apply the
transform and the optional recursion and yield the slot value (some);
otherwise yield none (the mapped flag stays false); pop the segment on
every one of those exits. -/
def processResolved (recurse : Recurse) (m : MappingMetadata) (seg : Seg)
    (v0 : JSValue) (st : MapState) : Except Unit (Option RVal × MapState) :=
  let st1 : MapState := { st with path := st.path ++ [seg] }
  let v1 := preTransformed m v0
  let tc := fieldValidation m v1
  let st2 := addRawIssues st1 tc.sink
  if tc.maximumSeverity ≠ some IssueLevel.error then
    let v2 := postTransformed m v1
    match m.mappedAs with
    | some c =>
        match handleRecursiveMapping recurse c m.isArray v2 st2 with
        | .error u => .error u
        | .ok (r, st3) => .ok (some r, { st3 with path := st3.path.dropLast })
    | none => .ok (some (.js v2), { st2 with path := st2.path.dropLast })
  else .ok (none, { st2 with path := st2.path.dropLast })

/-- The not-mapped fallback of a parameter slot: a required mapping
reports the resolution error; otherwise a truthy defaultValue is used;
otherwise the slot stays unset. -/
def paramFallback (m : MappingMetadata) (index : Nat) (st : MapState) :
    Option RVal × MapState :=
  if m.isRequired then
    (none,
      addRawIssues st
        [(IssueLevel.error,
          "Required parameter not found: " ++
            renderAliasList (ifEmpty m.aliases (.inr index)))])
  else
    match m.defaultValue with
    | some d => if jsTruthy d then (some (.js d), st) else (none, st)
    | none => (none, st)

/-- The not-mapped fallback of a property. -/
def propFallback (m : MappingMetadata) (key : String) (st : MapState) :
    Option RVal × MapState :=
  if m.isRequired then
    (none,
      addRawIssues st
        [(IssueLevel.error, "Required property or field not found: " ++ key)])
  else
    match m.defaultValue with
    | some d => if jsTruthy d then (some (.js d), st) else (none, st)
    | none => (none, st)

/-- Processing of one (possibly absent, for a sparse entry) parameter
mapping: resolve the aliases (falling back to the positional index), run
the found branch on the first hit, and apply the fallback when nothing
was mapped.  A hit on a sparse entry raises (the source reads a property
of undefined); an unresolved sparse entry is silently left unset. -/
def processParamMapping (recurse : Recurse) (m? : Option MappingMetadata)
    (index : Nat) (data : JSValue) (st : MapState) :
    Except Unit (Option RVal × MapState) :=
  let aliases := ifEmpty (match m? with | some m => m.aliases | none => []) (.inr index)
  match resolveAliases aliases data with
  | .error u => .error u
  | .ok (some (seg, v)) =>
      match m? with
      | none => .error ()
      | some m =>
          match processResolved recurse m seg v st with
          | .error u => .error u
          | .ok (some r, st1) => .ok (some r, st1)
          | .ok (none, st1) => .ok (paramFallback m index st1)
  | .ok none =>
      match m? with
      | none => .ok (none, st)
      | some m => .ok (paramFallback m index st)

/-- Processing of one property mapping (fallback alias: the property's own
name). -/
def processPropMapping (recurse : Recurse) (m : MappingMetadata) (key : String)
    (data : JSValue) (st : MapState) : Except Unit (Option RVal × MapState) :=
  match resolveAliases (ifEmpty m.aliases (.inl key)) data with
  | .error u => .error u
  | .ok (some (seg, v)) =>
      match processResolved recurse m seg v st with
      | .error u => .error u
      | .ok (some r, st1) => .ok (some r, st1)
      | .ok (none, st1) => .ok (propFallback m key st1)
  | .ok none => .ok (propFallback m key st)

/-- The parameter pass: each mapping in index order yields its slot. -/
def paramLoop (recurse : Recurse) :
    List (Option MappingMetadata) → Nat → JSValue → MapState →
      Except Unit (List (Option RVal) × MapState)
  | [], _, _, st => .ok ([], st)
  | m? :: rest, index, data, st =>
      match processParamMapping recurse m? index data st with
      | .error u => .error u
      | .ok (slot, st1) =>
          match paramLoop recurse rest (index + 1) data st1 with
          | .error u => .error u
          | .ok (slots, st2) => .ok (slot :: slots, st2)

/-- The property pass: declared property names in order; a mapped slot or
an applied default becomes an assignment on the constructed instance. -/
def propLoop (recurse : Recurse) :
    List (String × MappingMetadata) → JSValue → MapState →
      Except Unit (List (String × RVal) × MapState)
  | [], _, st => .ok ([], st)
  | (key, m) :: rest, data, st =>
      match processPropMapping recurse m key data st with
      | .error u => .error u
      | .ok (slot, st1) =>
          match propLoop recurse rest data st1 with
          | .error u => .error u
          | .ok (assigns, st2) =>
              .ok ((match slot with | some r => [(key, r)] | none => []) ++ assigns, st2)

/-- One unfolding of internalCreateInstance, parameterized by the function
used for nested recursion: null and undefined data are returned
unchanged; otherwise the parameter pass, the construction, the property
pass, and the two optional capability hooks run in order. -/
def buildInstanceF (recurse : Recurse) (c : TypeDesc) (data : JSValue)
    (st : MapState) : Except Unit (RVal × MapState) :=
  if isNullish data then .ok (.js data, st)
  else
    match (match c.parameters with
           | some ms => paramLoop recurse ms 0 data st
           | none => .ok ([], st)) with
    | .error u => .error u
    | .ok (args, st1) =>
        match (match c.properties with
               | some ps => propLoop recurse ps data st1
               | none => .ok ([], st1)) with
        | .error u => .error u
        | .ok (assigns, st2) =>
            let st3 := match c.mapDataHook with
                       | some h => addRawIssues st2 (h data)
                       | none => st2
            let st4 := match c.validateHook with
                       | some l => addRawIssues st3 l
                       | none => st3
            .ok (.inst args assigns, st4)

/-- Mapper.internalCreateInstance, with a fuel bound on the metadata
nesting depth (the source does not guard against cyclic metadata; fuel
exhaustion models the resulting divergence as an abort). -/
def internalCreateInstance : Nat → Recurse
  | 0 => fun _ _ _ => .error ()
  | fuel + 1 => buildInstanceF (internalCreateInstance fuel)

/-- instanceof Object for a static field value: arrays and plain objects
are Objects, primitives are not. -/
def instanceofObject : JSValue → Bool
  | .arr _ => true
  | .obj _ => true
  | _ => false

/-- Array.isArray for a static field value. -/
def isArrayJS : JSValue → Bool
  | .arr _ => true
  | _ => false

/-- objectOrUnspecified of isDecoratedType: a named static field, when
present on the constructor, must be an Object. -/
def objectOrUnspecified (statics : List (String × JSValue)) (name : String) : Bool :=
  match statics.lookup name with
  | none => true
  | some v => instanceofObject v

/-- arrayOrUnspecified of isDecoratedType: a named static field, when
present, must be an array. -/
def arrayOrUnspecified (statics : List (String × JSValue)) (name : String) : Bool :=
  match statics.lookup name with
  | none => true
  | some v => isArrayJS v

/-- isDecoratedType as written in the source: the properties collection is
checked under its real key, but the parameters collection is checked
under the misspelled key written in the source. -/
def isDecoratedType (statics : List (String × JSValue)) : Bool :=
  objectOrUnspecified statics "_properties" && arrayOrUnspecified statics "_parmeters"

/-- A conversion failure: the structural metadata error thrown before any
construction, the aggregate ValidationError of the no-callback path
(error count, message, full diagnostics state), or a propagated
JavaScript exception. -/
inductive ConvertErr where
  | invalidMetadata
  | validation (count : Nat) (message : String) (issues : List ValidationIssue)
  | jsError
deriving DecidableEq

/-- The observable outcome of Mapper.convert: the returned instance or
raised failure, plus the list of callback invocations (instance and the
issues of the diagnostics state it received). -/
structure ConvertOutcome where
  result : Except ConvertErr RVal
  callbackCalls : List (RVal × List ValidationIssue)

/-- Mapper.convert.  The constructor is modelled by the raw static fields
its shape check reads together with the typed metadata the engine walks.
With a callback the instance is returned and the callback invoked once
with it and the diagnostics state; without one, an aggregate
ValidationError is raised exactly when some accumulated issue has error
severity. -/
def convert (fuel : Nat) (statics : List (String × JSValue)) (c : TypeDesc)
    (data : JSValue) (withCallback : Bool) : ConvertOutcome :=
  if !isDecoratedType statics then
    { result := .error .invalidMetadata, callbackCalls := [] }
  else
    match internalCreateInstance fuel c data { path := [], issues := [] } with
    | .error _ => { result := .error .jsError, callbackCalls := [] }
    | .ok (r, st) =>
        if withCallback then
          { result := .ok r, callbackCalls := [(r, st.issues)] }
        else
          let errs := st.issues.filter (fun iss => decide (iss.level = IssueLevel.error))
          if errs.length ≠ 0 then
            { result :=
                .error (.validation errs.length
                  ("Validation failed with " ++ toString errs.length ++ " errors: " ++
                    String.intercalate "," (errs.map (fun iss => iss.message)))
                  st.issues)
              callbackCalls := [] }
          else { result := .ok r, callbackCalls := [] }

theorem trackRun_append (t : TrackingValidationContext) (a b : List RawIssue) :
    trackRun t (a ++ b) = trackRun (trackRun t a) b :=
  List.foldl_append ..

theorem validateValue_eq_trackRun (validations : List Chain) (v : JSValue) :
    validateValue validations v =
      trackRun freshTracking ((validations.map (fun f => f v)).flatten) := by
  unfold validateValue
  generalize freshTracking = t
  induction validations generalizing t with
  | nil => rfl
  | cons f rest ih =>
      simp only [List.foldl_cons, List.map_cons, List.flatten_cons, trackRun_append]
      exact ih (trackRun t (f v))

/-- C5: issues reported through a TrackingValidationContext are delivered
unchanged and in order to the wrapped sink; afterwards the wrapper's
maximumSeverity is exactly the maximum of the reported levels (info less
than warn less than error; none when nothing was reported); and
Validator.validateValue returns exactly this maximum over the
concatenated reports of a field's whole validations list. -/
theorem tracking_delivery_and_max_spec (t : TrackingValidationContext)
    (l : List RawIssue) (validations : List Chain) (v : JSValue) :
    (trackRun t l).sink = t.sink ++ l ∧
    (trackRun { maximumSeverity := none, sink := t.sink } l).maximumSeverity
      = specMaxSev l ∧
    (validateValue validations v).maximumSeverity
      = specMaxSev ((validations.map (fun f => f v)).flatten) ∧
    (validateValue validations v).sink
      = (validations.map (fun f => f v)).flatten := by
  refine ⟨trackRun_sink .., trackRun_fresh_max .., ?_, ?_⟩
  · rw [validateValue_eq_trackRun]
    exact trackRun_fresh_max ..
  · rw [validateValue_eq_trackRun, trackRun_sink]
    rfl

/-- The tracked maximum severity a fresh wrapper reports after a list of
issues. -/
theorem trackMax_fresh (l : List RawIssue) :
    (trackRun freshTracking l).maximumSeverity = specMaxSev l :=
  trackRun_fresh_max l []

/-- C2: a refined chain first delivers exactly the current chain's issues
through the tracking wrapper; the next stage runs, on the same value and
into the same wrapper, exactly when the tracked maximum severity is not
error, so the composed report is the concatenation; the next stage never
runs when the current chain reported an error-level issue; and a second
refinement stage is gated by the combined severity of all earlier
stages. -/
theorem refine_gating_spec (C N N2 : Chain) (v : JSValue) :
    (refineValidatorChain C N false v =
      if specMaxSev (C v) = some IssueLevel.error then C v else C v ++ N v) ∧
    (∀ msg, (IssueLevel.error, msg) ∈ C v → refineValidatorChain C N false v = C v) ∧
    (specMaxSev (C v) ≠ some IssueLevel.error →
      refineValidatorChain (refineValidatorChain C N false) N2 false v =
        if specMaxSev (C v ++ N v) = some IssueLevel.error then C v ++ N v
        else (C v ++ N v) ++ N2 v) := by
  have hmain : ∀ C1 N1 : Chain, refineValidatorChain C1 N1 false v =
      if specMaxSev (C1 v) = some IssueLevel.error then C1 v else C1 v ++ N1 v := by
    intro C1 N1
    unfold refineValidatorChain
    simp only [Bool.not_false, Bool.true_or, if_pos]
    by_cases h : (trackRun freshTracking (C1 v)).maximumSeverity = some IssueLevel.error
    · rw [if_neg (by simpa using h), if_pos (by rwa [← trackMax_fresh])]
      rw [trackRun_sink]
      rfl
    · rw [if_pos (by simpa using h), if_neg (by rwa [← trackMax_fresh])]
      rw [trackRun_sink, trackRun_sink]
      rfl
  refine ⟨hmain C N, ?_, ?_⟩
  · intro msg hmem
    rw [hmain C N, if_pos ((specMaxSev_eq_error_iff _).mpr ⟨msg, hmem⟩)]
  · intro hne
    rw [hmain _ N2, hmain C N, if_neg hne]

/-- A closed instance of the hypothesis-bearing parts of the refinement
gating theorem: a chain reporting one error blocks its next stage, and an
issue-free chain lets a second refinement stage observe the combined
severity. -/
theorem refine_gating_spec_witness :
    ((IssueLevel.error, "bad") ∈
        (fun _ => [(IssueLevel.error, "bad")] : Chain) JSValue.null ∧
      refineValidatorChain (fun _ => [(IssueLevel.error, "bad")])
          (fun _ => [(IssueLevel.info, "next")]) false JSValue.null
        = [(IssueLevel.error, "bad")]) ∧
    (specMaxSev ((fun _ => ([] : List RawIssue) : Chain) JSValue.null)
        ≠ some IssueLevel.error ∧
      refineValidatorChain
          (refineValidatorChain (fun _ => []) (fun _ => [(IssueLevel.warn, "w")]) false)
          (fun _ => [(IssueLevel.info, "i")]) false JSValue.null
        = [(IssueLevel.warn, "w"), (IssueLevel.info, "i")]) := by
  constructor
  · refine ⟨by decide, ?_⟩
    have h := (refine_gating_spec (fun _ => [(IssueLevel.error, "bad")])
      (fun _ => [(IssueLevel.info, "next")]) (fun _ => []) JSValue.null).2.1
    exact h "bad" (by decide)
  · refine ⟨by decide, ?_⟩
    have h := (refine_gating_spec (fun _ => [])
      (fun _ => [(IssueLevel.warn, "w")]) (fun _ => [(IssueLevel.info, "i")])
      JSValue.null).2.2
    rw [h (by decide)]
    decide

/-- A recursion stub for field-level statements about mappings that
declare no nested type (the recursion argument is then never consulted). -/
def recurseStub : Recurse := fun _ d st => .ok (.js d, st)

/-- A property mapping whose validations list is exactly
nullable().isString(), as in the nullable-validation test class. -/
def nullableFooMapping : MappingMetadata :=
  .mk [] none [nullableIsString] none none false false none

theorem processResolved_nullableFoo (recurse : Recurse) (st : MapState) :
    processResolved recurse nullableFooMapping (.inl "foo") .null st
      = .ok (some (.js .null), st) := by
  have hfv : fieldValidation
      (MappingMetadata.mk [] none [nullableIsString] none none false false none)
      JSValue.null = freshTracking := rfl
  simp [processResolved, nullableFooMapping, preTransformed, postTransformed,
    MappingMetadata.preValidationTransform, MappingMetadata.transform,
    MappingMetadata.mappedAs, hfv, freshTracking, addRawIssues_nil,
    List.dropLast_concat]

theorem processPropMapping_nullableFoo (recurse : Recurse) (st : MapState) :
    processPropMapping recurse nullableFooMapping "foo"
        (JSValue.obj [("foo", JSValue.null)]) st
      = .ok (some (.js .null), st) := by
  have hres : resolveAliases (ifEmpty nullableFooMapping.aliases (.inl "foo"))
      (JSValue.obj [("foo", JSValue.null)]) = .ok (some (.inl "foo", .null)) := rfl
  simp only [processPropMapping, hres, processResolved_nullableFoo]

/-- C6 counterexample: for a field validated with nullable().isString(), a
null input value yields zero issues but the field is assigned the null
value rather than being left at its declared default — the engine marks
the field mapped and writes null to the slot. -/
theorem nullable_null_overwrites_default_counterexample :
    processPropMapping recurseStub nullableFooMapping "foo"
        (JSValue.obj [("foo", JSValue.null)]) { path := [], issues := [] }
      = .ok (some (.js .null), { path := [], issues := [] }) ∧
    some (RVal.js .null) ≠ (none : Option RVal) := by
  exact ⟨processPropMapping_nullableFoo recurseStub _, by simp⟩

/-- C6 (amended): a chain constructed with ignoreNull skips invocation
entirely on null or undefined values (base chains and refined chains
alike); nullable().isString() therefore reports zero issues on null and
exactly one type-mismatch error on a non-null non-string value; and the
engine assigns the resolved null to the field (marking it mapped, so the
declared default is skipped; the default applies only when the key is
absent). -/
theorem nullable_chain_spec (fn C N : Chain) (v w : JSValue) (st : MapState) :
    (isNullish v = true → makeValidatorChain fn true v = [] ∧
      refineValidatorChain C N true v = []) ∧
    nullableIsString JSValue.null = [] ∧
    (isNullish w = false → typeofJS w ≠ "string" →
      nullableIsString w
        = [(IssueLevel.error, "Expected type string, but found: " ++ typeofJS w)]) ∧
    (∀ recurse : Recurse,
      processPropMapping recurse nullableFooMapping "foo"
          (JSValue.obj [("foo", JSValue.null)]) st
        = .ok (some (.js .null), st)) := by
  refine ⟨?_, rfl, ?_, fun recurse => processPropMapping_nullableFoo recurse st⟩
  · intro hv
    constructor
    · simp [makeValidatorChain, hv]
    · simp [refineValidatorChain, hv]
  · intro hw hty
    simp [nullableIsString, makeValidatorChain, isStringCheck, hw, hty]

/-- Closed instance of the nullable-chain theorem: skipping on null, the
single type-mismatch report on 42, and the null assignment. -/
theorem nullable_chain_spec_witness :
    makeValidatorChain isStringCheck true JSValue.null = [] ∧
    nullableIsString (JSValue.num 42)
      = [(IssueLevel.error, "Expected type string, but found: number")] ∧
    processPropMapping recurseStub nullableFooMapping "foo"
        (JSValue.obj [("foo", JSValue.null)]) { path := [], issues := [] }
      = .ok (some (.js .null), { path := [], issues := [] }) := by
  have h := nullable_chain_spec isStringCheck isStringCheck isStringCheck
    JSValue.null (JSValue.num 42) { path := [], issues := [] }
  exact ⟨(h.1 rfl).1, (h.2.2.1 rfl (by decide)).trans rfl, h.2.2.2 recurseStub⟩

theorem string_append_ne_empty (a b : String) (h : a ≠ "") : a ++ b ≠ "" := by
  cases a with
  | mk da =>
    cases da with
    | nil => exact absurd rfl h
    | cons c cs =>
        cases b with
        | mk db =>
            intro hEq
            have h2 : (⟨c :: (cs ++ db)⟩ : String) = ⟨[]⟩ := hEq
            injection h2 with h3
            exact List.noConfusion h3

theorem string_append_empty (a : String) : a ++ "" = a := by
  cases a with
  | mk da =>
      show (⟨da ++ []⟩ : String) = ⟨da⟩
      rw [List.append_nil]

/-- Modelled from the spec for comparison (C8): rendering of the segments
after the first: each string segment preceded by a dot, each numeric
segment a bracketed index appended with no separator. -/
def specPathRest : List Seg → String
  | [] => ""
  | .inl s :: rest => "." ++ s ++ specPathRest rest
  | .inr n :: rest => "[" ++ toString n ++ "]" ++ specPathRest rest

/-- Modelled from the spec for comparison (C8): string segments joined
with dots except the first, numeric segments rendered as bracketed
indices with no separator. -/
def specPathString : List Seg → String
  | [] => ""
  | .inl s :: rest => s ++ specPathRest rest
  | .inr n :: rest => "[" ++ toString n ++ "]" ++ specPathRest rest

theorem pathString_go (l : List Seg) (acc : String) (hacc : acc ≠ "") :
    l.foldl pathStep acc = acc ++ specPathRest l := by
  induction l generalizing acc with
  | nil => exact (string_append_empty acc).symm
  | cons p rest ih =>
      cases p with
      | inl s =>
          have hstep : pathStep acc (.inl s) = acc ++ "." ++ s := by
            simp [pathStep, hacc]
          simp only [List.foldl_cons, hstep, specPathRest]
          rw [ih _ (string_append_ne_empty _ _ (string_append_ne_empty _ _ hacc))]
          simp [String.append_assoc]
      | inr n =>
          have hstep : pathStep acc (.inr n) = acc ++ "[" ++ toString n ++ "]" := rfl
          simp only [List.foldl_cons, hstep, specPathRest]
          rw [ih _ (string_append_ne_empty _ _
            (string_append_ne_empty _ _ (string_append_ne_empty _ _ hacc)))]
          simp [String.append_assoc]

/-- C8: pathString joins string segments with a dot except the first
segment and renders numeric segments as bracketed indices appended with
no separator (the equivalence needs the genuine assumption that string
segments are nonempty, since the source keys the dot on the accumulated
string being nonempty); in particular the segment sequence items, 2, name
renders as items[2].name. -/
theorem pathString_format_spec (segs : List Seg)
    (h : ∀ s, Sum.inl s ∈ segs → s ≠ "") :
    pathString segs = specPathString segs ∧
    pathString [.inl "items", .inr 2, .inl "name"] = "items[2].name" := by
  refine ⟨?_, rfl⟩
  cases segs with
  | nil => rfl
  | cons p rest =>
      cases p with
      | inl s =>
          have hs : s ≠ "" := h s (List.mem_cons_self _ _)
          have hstep : pathStep "" (.inl s) = s := by
            simp [pathStep]
          simp only [pathString, List.foldl_cons, hstep, specPathString]
          exact pathString_go rest s hs
      | inr n =>
          have hstep : pathStep "" (.inr n) = "[" ++ toString n ++ "]" := rfl
          simp only [pathString, List.foldl_cons, hstep, specPathString]
          exact pathString_go rest _ (string_append_ne_empty _ _
            (string_append_ne_empty "[" _ (by decide)))

/-- Closed instance of the path-format theorem at the specification's own
example. -/
theorem pathString_format_spec_witness :
    pathString [.inl "items", .inr 2, .inl "name"] = "items[2].name" :=
  (pathString_format_spec [.inl "items", .inr 2, .inl "name"]
    (by intro s hs; simp at hs; rcases hs with rfl | rfl <;> decide)).2

/- Characterization lemmas for the per-mapping processing. -/

/-- The issues recorded by the root context when a batch of raw issues is
delivered under a given path stack. -/
def issuesAt (path : List Seg) (l : List RawIssue) : List ValidationIssue :=
  l.map (fun i => ⟨pathString path, i.1, i.2⟩)

theorem addRawIssues_eq (st : MapState) (l : List RawIssue) :
    addRawIssues st l = { st with issues := st.issues ++ issuesAt st.path l } := rfl

theorem processResolved_error_case (recurse : Recurse) (m : MappingMetadata)
    (seg : Seg) (v : JSValue) (st : MapState)
    (hsev : (fieldValidation m (preTransformed m v)).maximumSeverity
      = some IssueLevel.error) :
    processResolved recurse m seg v st =
      .ok (none, { st with issues := (st.issues ++
        issuesAt (st.path ++ [seg]) (fieldValidation m (preTransformed m v)).sink) }) := by
  simp [processResolved, hsev, addRawIssues, issuesAt, List.dropLast_concat]

theorem processResolved_mapped_flat (recurse : Recurse) (m : MappingMetadata)
    (seg : Seg) (v : JSValue) (st : MapState)
    (hsev : (fieldValidation m (preTransformed m v)).maximumSeverity
      ≠ some IssueLevel.error)
    (hflat : m.mappedAs = none) :
    processResolved recurse m seg v st =
      .ok (some (.js (postTransformed m (preTransformed m v))),
        { st with issues := (st.issues ++
          issuesAt (st.path ++ [seg]) (fieldValidation m (preTransformed m v)).sink) }) := by
  simp [processResolved, hsev, hflat, addRawIssues, issuesAt, List.dropLast_concat]

theorem processPropMapping_not_found (recurse : Recurse) (m : MappingMetadata)
    (key : String) (data : JSValue) (st : MapState)
    (h : resolveAliases (ifEmpty m.aliases (.inl key)) data = .ok none) :
    processPropMapping recurse m key data st = .ok (propFallback m key st) := by
  simp [processPropMapping, h]

theorem processPropMapping_found_error (recurse : Recurse) (m : MappingMetadata)
    (key : String) (data : JSValue) (st : MapState) (seg : Seg) (v : JSValue)
    (h : resolveAliases (ifEmpty m.aliases (.inl key)) data = .ok (some (seg, v)))
    (hsev : (fieldValidation m (preTransformed m v)).maximumSeverity
      = some IssueLevel.error) :
    processPropMapping recurse m key data st =
      .ok (propFallback m key { st with issues := (st.issues ++
        issuesAt (st.path ++ [seg]) (fieldValidation m (preTransformed m v)).sink) }) := by
  simp only [processPropMapping, h]
  rw [processResolved_error_case recurse m seg v st hsev]

theorem processPropMapping_found_ok (recurse : Recurse) (m : MappingMetadata)
    (key : String) (data : JSValue) (st : MapState) (seg : Seg) (v : JSValue)
    (h : resolveAliases (ifEmpty m.aliases (.inl key)) data = .ok (some (seg, v)))
    (hsev : (fieldValidation m (preTransformed m v)).maximumSeverity
      ≠ some IssueLevel.error)
    (hflat : m.mappedAs = none) :
    processPropMapping recurse m key data st =
      .ok (some (.js (postTransformed m (preTransformed m v))),
        { st with issues := (st.issues ++
          issuesAt (st.path ++ [seg]) (fieldValidation m (preTransformed m v)).sink) }) := by
  simp only [processPropMapping, h]
  rw [processResolved_mapped_flat recurse m seg v st hsev hflat]

theorem processParamMapping_not_found (recurse : Recurse) (m : MappingMetadata)
    (index : Nat) (data : JSValue) (st : MapState)
    (h : resolveAliases (ifEmpty m.aliases (.inr index)) data = .ok none) :
    processParamMapping recurse (some m) index data st
      = .ok (paramFallback m index st) := by
  simp [processParamMapping, h]

theorem processParamMapping_found_error (recurse : Recurse) (m : MappingMetadata)
    (index : Nat) (data : JSValue) (st : MapState) (seg : Seg) (v : JSValue)
    (h : resolveAliases (ifEmpty m.aliases (.inr index)) data = .ok (some (seg, v)))
    (hsev : (fieldValidation m (preTransformed m v)).maximumSeverity
      = some IssueLevel.error) :
    processParamMapping recurse (some m) index data st =
      .ok (paramFallback m index { st with issues := (st.issues ++
        issuesAt (st.path ++ [seg]) (fieldValidation m (preTransformed m v)).sink) }) := by
  simp only [processParamMapping, h]
  rw [processResolved_error_case recurse m seg v st hsev]

theorem processParamMapping_found_ok (recurse : Recurse) (m : MappingMetadata)
    (index : Nat) (data : JSValue) (st : MapState) (seg : Seg) (v : JSValue)
    (h : resolveAliases (ifEmpty m.aliases (.inr index)) data = .ok (some (seg, v)))
    (hsev : (fieldValidation m (preTransformed m v)).maximumSeverity
      ≠ some IssueLevel.error)
    (hflat : m.mappedAs = none) :
    processParamMapping recurse (some m) index data st =
      .ok (some (.js (postTransformed m (preTransformed m v))),
        { st with issues := (st.issues ++
          issuesAt (st.path ++ [seg]) (fieldValidation m (preTransformed m v)).sink) }) := by
  simp only [processParamMapping, h]
  rw [processResolved_mapped_flat recurse m seg v st hsev hflat]

theorem propFallback_required (m : MappingMetadata) (key : String) (st : MapState)
    (h : m.isRequired = true) :
    propFallback m key st = (none, addRawIssues st
      [(IssueLevel.error, "Required property or field not found: " ++ key)]) := by
  simp [propFallback, h]

theorem propFallback_default (m : MappingMetadata) (key : String) (st : MapState)
    (d : JSValue) (h : m.isRequired = false) (hd : m.defaultValue = some d)
    (ht : jsTruthy d = true) :
    propFallback m key st = (some (.js d), st) := by
  simp [propFallback, h, hd, ht]

theorem paramFallback_required (m : MappingMetadata) (index : Nat) (st : MapState)
    (h : m.isRequired = true) :
    paramFallback m index st = (none, addRawIssues st
      [(IssueLevel.error, "Required parameter not found: " ++
        renderAliasList (ifEmpty m.aliases (.inr index)))]) := by
  simp [paramFallback, h]

theorem paramFallback_default (m : MappingMetadata) (index : Nat) (st : MapState)
    (d : JSValue) (h : m.isRequired = false) (hd : m.defaultValue = some d)
    (ht : jsTruthy d = true) :
    paramFallback m index st = (some (.js d), st) := by
  simp [paramFallback, h, hd, ht]

/-- A property mapping with a resolving alias, an always-erroring
validation, and a truthy declared default. -/
def defaultedMapping : MappingMetadata :=
  .mk [Sum.inl "a"] none [fun _ => [(IssueLevel.error, "bad")]] none none
    false false (some (.str "D"))

/-- A required property mapping with a resolving alias and an
always-erroring validation. -/
def requiredBadMapping : MappingMetadata :=
  .mk [Sum.inl "a"] none [fun _ => [(IssueLevel.error, "bad")]] none none
    false true none

/-- C3 counterexample: the alias a resolves (to the value x), yet because
the validation chain reports an error-level issue the engine falls into
the not-mapped fallback and assigns the declared default D — refuting
both that the default is applied only when no alias resolved and that a
validation failure leaves the slot unassigned. -/
theorem default_despite_resolution_counterexample :
    resolveAliases (ifEmpty defaultedMapping.aliases (Sum.inl "f"))
        (JSValue.obj [("a", JSValue.str "x")])
      = .ok (some (Sum.inl "a", JSValue.str "x")) ∧
    processPropMapping recurseStub defaultedMapping "f"
        (JSValue.obj [("a", JSValue.str "x")]) { path := [], issues := [] }
      = .ok (some (.js (.str "D")),
          { path := [], issues := [⟨"a", IssueLevel.error, "bad"⟩] }) :=
  ⟨rfl, rfl⟩

/-- C3 (amended): a truthy defaultValue of a non-required mapping is
applied whenever the mapped flag stays false — both when no alias
resolved and when the resolved value's validation chain produced an
error-level issue (which suppresses only the field's transform and
recursion and falls through to the required/default handling); a
resolved value whose validation is not error-severity — in particular a
resolved null — is assigned and the default is skipped.  Stated for the
property pass and the parameter pass. -/
theorem default_application_spec (recurse : Recurse) (m : MappingMetadata)
    (key : String) (index : Nat) (data : JSValue) (st : MapState) (d : JSValue)
    (hreq : m.isRequired = false) (hd : m.defaultValue = some d)
    (ht : jsTruthy d = true) :
    (resolveAliases (ifEmpty m.aliases (.inl key)) data = .ok none →
      processPropMapping recurse m key data st = .ok (some (.js d), st)) ∧
    (∀ seg v,
      resolveAliases (ifEmpty m.aliases (.inl key)) data = .ok (some (seg, v)) →
      (fieldValidation m (preTransformed m v)).maximumSeverity
          = some IssueLevel.error →
      processPropMapping recurse m key data st =
        .ok (some (.js d), { st with issues := (st.issues ++
          issuesAt (st.path ++ [seg]) (fieldValidation m (preTransformed m v)).sink) })) ∧
    (∀ seg v,
      resolveAliases (ifEmpty m.aliases (.inl key)) data = .ok (some (seg, v)) →
      (fieldValidation m (preTransformed m v)).maximumSeverity
          ≠ some IssueLevel.error →
      m.mappedAs = none →
      processPropMapping recurse m key data st =
        .ok (some (.js (postTransformed m (preTransformed m v))),
          { st with issues := (st.issues ++
            issuesAt (st.path ++ [seg]) (fieldValidation m (preTransformed m v)).sink) })) ∧
    (resolveAliases (ifEmpty m.aliases (.inr index)) data = .ok none →
      processParamMapping recurse (some m) index data st = .ok (some (.js d), st)) ∧
    (∀ seg v,
      resolveAliases (ifEmpty m.aliases (.inr index)) data = .ok (some (seg, v)) →
      (fieldValidation m (preTransformed m v)).maximumSeverity
          = some IssueLevel.error →
      processParamMapping recurse (some m) index data st =
        .ok (some (.js d), { st with issues := (st.issues ++
          issuesAt (st.path ++ [seg]) (fieldValidation m (preTransformed m v)).sink) })) := by
  refine ⟨?_, ?_, ?_, ?_, ?_⟩
  · intro h
    rw [processPropMapping_not_found recurse m key data st h,
      propFallback_default m key st d hreq hd ht]
  · intro seg v h hsev
    rw [processPropMapping_found_error recurse m key data st seg v h hsev,
      propFallback_default m key _ d hreq hd ht]
  · intro seg v h hsev hflat
    exact processPropMapping_found_ok recurse m key data st seg v h hsev hflat
  · intro h
    rw [processParamMapping_not_found recurse m index data st h,
      paramFallback_default m index st d hreq hd ht]
  · intro seg v h hsev
    rw [processParamMapping_found_error recurse m index data st seg v h hsev,
      paramFallback_default m index _ d hreq hd ht]

/-- Closed instance of the amended default-application theorem at the
counterexample mapping: the default is applied although the alias
resolved, because the validation errored. -/
theorem default_application_spec_witness :
    processPropMapping recurseStub defaultedMapping "f"
        (JSValue.obj [("a", JSValue.str "x")]) { path := [], issues := [] }
      = .ok (some (.js (.str "D")),
          { path := [], issues := [⟨"a", IssueLevel.error, "bad"⟩] }) := by
  have h := (default_application_spec recurseStub defaultedMapping "f" 0
    (JSValue.obj [("a", JSValue.str "x")]) { path := [], issues := [] }
    (.str "D") rfl rfl rfl).2.1 (Sum.inl "a") (JSValue.str "x") rfl rfl
  exact h.trans rfl

/-- C4 counterexample: the alias a resolves, yet because the validation
chain errors, the engine emits the Required property or field not found
diagnostic as well — refuting that it is emitted only when no alias
resolved. -/
theorem required_error_despite_resolution_counterexample :
    resolveAliases (ifEmpty requiredBadMapping.aliases (Sum.inl "f"))
        (JSValue.obj [("a", JSValue.str "x")])
      = .ok (some (Sum.inl "a", JSValue.str "x")) ∧
    processPropMapping recurseStub requiredBadMapping "f"
        (JSValue.obj [("a", JSValue.str "x")]) { path := [], issues := [] }
      = .ok (none,
          { path := [], issues :=
              [⟨"a", IssueLevel.error, "bad"⟩,
               ⟨"", IssueLevel.error, "Required property or field not found: f"⟩] }) :=
  ⟨rfl, rfl⟩

/-- C4 (amended): the required resolution error is emitted exactly when
the mapping is required and its mapped flag stays false — when no alias
resolved, and also when a resolved value's validation produced an
error-level issue; exactly one such diagnostic is appended per mapping,
after that field's validation issues and at the field's outer path; a
required mapping whose resolved value passes validation, and a
non-required unresolved mapping, emit none. -/
theorem required_error_emission_spec (recurse : Recurse) (m : MappingMetadata)
    (key : String) (index : Nat) (data : JSValue) (st : MapState) :
    (m.isRequired = true →
      resolveAliases (ifEmpty m.aliases (.inl key)) data = .ok none →
      processPropMapping recurse m key data st =
        .ok (none, addRawIssues st
          [(IssueLevel.error, "Required property or field not found: " ++ key)])) ∧
    (m.isRequired = true → ∀ seg v,
      resolveAliases (ifEmpty m.aliases (.inl key)) data = .ok (some (seg, v)) →
      (fieldValidation m (preTransformed m v)).maximumSeverity
          = some IssueLevel.error →
      processPropMapping recurse m key data st =
        .ok (none, addRawIssues
          { st with issues := (st.issues ++
            issuesAt (st.path ++ [seg]) (fieldValidation m (preTransformed m v)).sink) }
          [(IssueLevel.error, "Required property or field not found: " ++ key)])) ∧
    (∀ seg v,
      resolveAliases (ifEmpty m.aliases (.inl key)) data = .ok (some (seg, v)) →
      (fieldValidation m (preTransformed m v)).maximumSeverity
          ≠ some IssueLevel.error →
      m.mappedAs = none →
      processPropMapping recurse m key data st =
        .ok (some (.js (postTransformed m (preTransformed m v))),
          { st with issues := (st.issues ++
            issuesAt (st.path ++ [seg]) (fieldValidation m (preTransformed m v)).sink) })) ∧
    (m.isRequired = false →
      resolveAliases (ifEmpty m.aliases (.inl key)) data = .ok none →
      ∃ slot, processPropMapping recurse m key data st = .ok (slot, st)) ∧
    (m.isRequired = true →
      resolveAliases (ifEmpty m.aliases (.inr index)) data = .ok none →
      processParamMapping recurse (some m) index data st =
        .ok (none, addRawIssues st
          [(IssueLevel.error, "Required parameter not found: " ++
            renderAliasList (ifEmpty m.aliases (.inr index)))])) ∧
    (m.isRequired = true → ∀ seg v,
      resolveAliases (ifEmpty m.aliases (.inr index)) data = .ok (some (seg, v)) →
      (fieldValidation m (preTransformed m v)).maximumSeverity
          = some IssueLevel.error →
      processParamMapping recurse (some m) index data st =
        .ok (none, addRawIssues
          { st with issues := (st.issues ++
            issuesAt (st.path ++ [seg]) (fieldValidation m (preTransformed m v)).sink) }
          [(IssueLevel.error, "Required parameter not found: " ++
            renderAliasList (ifEmpty m.aliases (.inr index)))])) := by
  refine ⟨?_, ?_, ?_, ?_, ?_, ?_⟩
  · intro hreq h
    rw [processPropMapping_not_found recurse m key data st h,
      propFallback_required m key st hreq]
  · intro hreq seg v h hsev
    rw [processPropMapping_found_error recurse m key data st seg v h hsev,
      propFallback_required m key _ hreq]
  · intro seg v h hsev hflat
    exact processPropMapping_found_ok recurse m key data st seg v h hsev hflat
  · intro hreq h
    rw [processPropMapping_not_found recurse m key data st h]
    unfold propFallback
    rw [hreq]
    simp only [Bool.false_eq_true, if_false]
    rcases hdv : m.defaultValue with _ | dv
    · exact ⟨none, rfl⟩
    · by_cases htv : jsTruthy dv = true
      · exact ⟨some (.js dv), by simp [htv]⟩
      · exact ⟨none, by simp [htv]⟩
  · intro hreq h
    rw [processParamMapping_not_found recurse m index data st h,
      paramFallback_required m index st hreq]
  · intro hreq seg v h hsev
    rw [processParamMapping_found_error recurse m index data st seg v h hsev,
      paramFallback_required m index _ hreq]

/-- Closed instance of the required-error emission theorem at the
counterexample mapping: resolution happened, the validation errored, and
exactly one required diagnostic follows the validation issue. -/
theorem required_error_emission_spec_witness :
    processPropMapping recurseStub requiredBadMapping "f"
        (JSValue.obj [("a", JSValue.str "x")]) { path := [], issues := [] }
      = .ok (none,
          { path := [], issues :=
              [⟨"a", IssueLevel.error, "bad"⟩,
               ⟨"", IssueLevel.error, "Required property or field not found: f"⟩] }) := by
  have h := (required_error_emission_spec recurseStub requiredBadMapping "f" 0
    (JSValue.obj [("a", JSValue.str "x")]) { path := [], issues := [] }).2.1
    rfl (Sum.inl "a") (JSValue.str "x") rfl rfl
  exact h.trans rfl

/-- The empty decorated type: no parameter mappings, no property
mappings, no hooks. -/
def emptyDesc : TypeDesc := .mk none none none none

theorem mapElems_length (recurse : Recurse) (c : TypeDesc) (elems : List JSValue)
    (ix : Nat) (st : MapState) (rs : List RVal) (st1 : MapState)
    (h : mapElems recurse c elems ix st = .ok (rs, st1)) :
    rs.length = elems.length := by
  induction elems generalizing ix st rs st1 with
  | nil =>
      simp only [mapElems, Except.ok.injEq, Prod.mk.injEq] at h
      rcases h with ⟨h1, h2⟩
      rw [← h1]
      rfl
  | cons e rest ih =>
      simp only [mapElems] at h
      rcases hrec : recurse c e { st with path := st.path ++ [.inr (ix : Int)] }
        with u | ⟨r, stA⟩
      · simp only [hrec] at h
        exact Except.noConfusion h
      · simp only [hrec] at h
        rcases hrest : mapElems recurse c rest (ix + 1)
            { stA with path := stA.path.dropLast } with u | ⟨rs0, stB⟩
        · simp only [hrest] at h
          exact Except.noConfusion h
        · simp only [hrest, Except.ok.injEq, Prod.mk.injEq] at h
          rw [← h.1]
          simp [ih (ix + 1) _ rs0 stB hrest]

/-- C7 counterexample: in array mode a null value is not an array, yet
handleRecursiveMapping emits no diagnostic at all and silently yields
undefined — refuting that every non-array value produces exactly one
shape-error diagnostic. -/
theorem array_mode_null_counterexample :
    handleRecursiveMapping recurseStub emptyDesc true JSValue.null
        { path := [Sum.inl "items"], issues := [] }
      = .ok (.js .undefined, { path := [Sum.inl "items"], issues := [] }) ∧
    (∀ es, JSValue.null ≠ JSValue.arr es) :=
  ⟨rfl, fun _ h => JSValue.noConfusion h⟩

/-- C7 (amended): in array mode, a non-null non-undefined non-array value
produces exactly one shape-error diagnostic naming the dot-joined current
path and yields no value (undefined); a null or undefined value yields
undefined silently; an array is mapped element-wise — the element index
is pushed before each element is built through the recursive entry and
popped right after — and the results are collected in order, one per
element. -/
theorem array_mode_shape_spec (recurse : Recurse) (c : TypeDesc)
    (data : JSValue) (st : MapState) (elems : List JSValue) (e : JSValue)
    (rest : List JSValue) (ix : Nat) :
    (isNullish data = false → (∀ es, data ≠ .arr es) →
      handleRecursiveMapping recurse c true data st =
        .ok (.js .undefined, addRawIssues st
          [(IssueLevel.error,
            "Expected an array but found a non array type for property " ++
              joinDot st.path)])) ∧
    (isNullish data = true →
      handleRecursiveMapping recurse c true data st = .ok (.js .undefined, st)) ∧
    (∀ rs st1, mapElems recurse c elems 0 st = .ok (rs, st1) →
      handleRecursiveMapping recurse c true (.arr elems) st = .ok (.arrOf rs, st1) ∧
      rs.length = elems.length) ∧
    (mapElems recurse c (e :: rest) ix st =
      match recurse c e { st with path := st.path ++ [.inr (ix : Int)] } with
      | .error u => .error u
      | .ok (r, st1) =>
          match mapElems recurse c rest (ix + 1)
              { st1 with path := st1.path.dropLast } with
          | .error u => .error u
          | .ok (rs, st2) => .ok (r :: rs, st2)) := by
  refine ⟨?_, ?_, ?_, rfl⟩
  · intro hnn hna
    cases data with
    | null => simp [isNullish] at hnn
    | undefined => simp [isNullish] at hnn
    | arr es => exact absurd rfl (hna es)
    | bool b => rfl
    | num n => rfl
    | nan => rfl
    | str s => rfl
    | obj fields => rfl
  · intro hn
    cases data with
    | null => rfl
    | undefined => rfl
    | bool b => simp [isNullish] at hn
    | num n => simp [isNullish] at hn
    | nan => simp [isNullish] at hn
    | str s => simp [isNullish] at hn
    | arr es => simp [isNullish] at hn
    | obj fields => simp [isNullish] at hn
  · intro rs st1 h
    constructor
    · simp [handleRecursiveMapping, isNullish, h]
    · exact mapElems_length recurse c elems 0 st rs st1 h

/-- Closed instance of the array-mode theorem: a scalar produces the
single shape error, and a two-element array maps both elements under
their bracketed indices. -/
theorem array_mode_shape_spec_witness :
    handleRecursiveMapping recurseStub emptyDesc true (JSValue.str "x")
        { path := [Sum.inl "items"], issues := [] }
      = .ok (.js .undefined, addRawIssues { path := [Sum.inl "items"], issues := [] }
          [(IssueLevel.error,
            "Expected an array but found a non array type for property items")]) ∧
    handleRecursiveMapping (internalCreateInstance 1) emptyDesc true
        (JSValue.arr [JSValue.num 1, JSValue.num 2])
        { path := [Sum.inl "items"], issues := [] }
      = .ok (.arrOf [.inst [] [], .inst [] []],
          { path := [Sum.inl "items"], issues := [] }) := by
  constructor
  · have h := (array_mode_shape_spec recurseStub emptyDesc (JSValue.str "x")
      { path := [Sum.inl "items"], issues := [] } [] JSValue.null [] 0).1
      rfl (fun _ hEq => JSValue.noConfusion hEq)
    exact h.trans (by rfl)
  · have h := (array_mode_shape_spec (internalCreateInstance 1) emptyDesc
      (JSValue.arr [JSValue.num 1, JSValue.num 2])
      { path := [Sum.inl "items"], issues := [] }
      [JSValue.num 1, JSValue.num 2] JSValue.null [] 0).2.2.1
      [RVal.inst [] [], RVal.inst [] []]
      { path := [Sum.inl "items"], issues := [] } ?hm
    · exact h.1
    · rfl

/-- A recursion function restores the path stack on every successful
return. -/
def PreservesPath (recurse : Recurse) : Prop :=
  ∀ c d s r s1, recurse c d s = .ok (r, s1) → s1.path = s.path

theorem processResolved_mapped_rec (recurse : Recurse) (m : MappingMetadata)
    (seg : Seg) (v : JSValue) (st : MapState) (c : TypeDesc)
    (hsev : (fieldValidation m (preTransformed m v)).maximumSeverity
      ≠ some IssueLevel.error)
    (hma : m.mappedAs = some c) :
    processResolved recurse m seg v st =
      (match handleRecursiveMapping recurse c m.isArray
          (postTransformed m (preTransformed m v))
          (addRawIssues { st with path := st.path ++ [seg] }
            (fieldValidation m (preTransformed m v)).sink) with
       | .error u => .error u
       | .ok (r, st3) => .ok (some r, { st3 with path := st3.path.dropLast })) := by
  simp [processResolved, hsev, hma]

theorem mapElems_path (recurse : Recurse) (h : PreservesPath recurse)
    (c : TypeDesc) (elems : List JSValue) (ix : Nat) (st : MapState)
    (rs : List RVal) (st1 : MapState)
    (heq : mapElems recurse c elems ix st = .ok (rs, st1)) : st1.path = st.path := by
  induction elems generalizing ix st rs st1 with
  | nil =>
      simp only [mapElems, Except.ok.injEq, Prod.mk.injEq] at heq
      rw [← heq.2]
  | cons e rest ih =>
      simp only [mapElems] at heq
      rcases hrec : recurse c e { st with path := st.path ++ [.inr (ix : Int)] }
        with u | ⟨r, stA⟩
      · simp only [hrec] at heq
        exact Except.noConfusion heq
      · simp only [hrec] at heq
        rcases hrest : mapElems recurse c rest (ix + 1)
            { stA with path := stA.path.dropLast } with u | ⟨rs0, stB⟩
        · simp only [hrest] at heq
          exact Except.noConfusion heq
        · simp only [hrest, Except.ok.injEq, Prod.mk.injEq] at heq
          rw [← heq.2]
          have h1 := ih (ix + 1) _ rs0 stB hrest
          have h2 := h c e { st with path := st.path ++ [.inr (ix : Int)] } r stA hrec
          simp only [h2] at h1
          rw [h1]
          exact List.dropLast_concat ..

theorem handleRecursiveMapping_path (recurse : Recurse) (h : PreservesPath recurse)
    (c : TypeDesc) (isArr : Bool) (data : JSValue) (st : MapState)
    (r : RVal) (st1 : MapState)
    (heq : handleRecursiveMapping recurse c isArr data st = .ok (r, st1)) :
    st1.path = st.path := by
  cases isArr with
  | false =>
      simp only [handleRecursiveMapping, Bool.false_eq_true, if_false] at heq
      exact h c data st r st1 heq
  | true =>
      simp only [handleRecursiveMapping, if_true] at heq
      cases data with
      | null =>
          simp only [isNullish, Bool.not_true, Bool.false_eq_true, if_false,
            Except.ok.injEq, Prod.mk.injEq] at heq
          rw [← heq.2]
      | undefined =>
          simp only [isNullish, Bool.not_true, Bool.false_eq_true, if_false,
            Except.ok.injEq, Prod.mk.injEq] at heq
          rw [← heq.2]
      | arr elems =>
          simp only [isNullish, Bool.not_false, if_true] at heq
          rcases hm : mapElems recurse c elems 0 st with u | ⟨rs, stB⟩
          · simp only [hm] at heq
            exact Except.noConfusion heq
          · simp only [hm, Except.ok.injEq, Prod.mk.injEq] at heq
            rw [← heq.2]
            exact mapElems_path recurse h c elems 0 st rs stB hm
      | bool b =>
          simp only [isNullish, Bool.not_false, if_true, Except.ok.injEq,
            Prod.mk.injEq] at heq
          rw [← heq.2, addRawIssues_path]
      | num n =>
          simp only [isNullish, Bool.not_false, if_true, Except.ok.injEq,
            Prod.mk.injEq] at heq
          rw [← heq.2, addRawIssues_path]
      | nan =>
          simp only [isNullish, Bool.not_false, if_true, Except.ok.injEq,
            Prod.mk.injEq] at heq
          rw [← heq.2, addRawIssues_path]
      | str s =>
          simp only [isNullish, Bool.not_false, if_true, Except.ok.injEq,
            Prod.mk.injEq] at heq
          rw [← heq.2, addRawIssues_path]
      | obj fields =>
          simp only [isNullish, Bool.not_false, if_true, Except.ok.injEq,
            Prod.mk.injEq] at heq
          rw [← heq.2, addRawIssues_path]

theorem processResolved_path (recurse : Recurse) (h : PreservesPath recurse)
    (m : MappingMetadata) (seg : Seg) (v : JSValue) (st : MapState)
    (slot : Option RVal) (st1 : MapState)
    (heq : processResolved recurse m seg v st = .ok (slot, st1)) :
    st1.path = st.path := by
  by_cases hsev : (fieldValidation m (preTransformed m v)).maximumSeverity
      = some IssueLevel.error
  · rw [processResolved_error_case recurse m seg v st hsev] at heq
    simp only [Except.ok.injEq, Prod.mk.injEq] at heq
    rw [← heq.2]
  · rcases hma : m.mappedAs with _ | c
    · rw [processResolved_mapped_flat recurse m seg v st hsev hma] at heq
      simp only [Except.ok.injEq, Prod.mk.injEq] at heq
      rw [← heq.2]
    · rw [processResolved_mapped_rec recurse m seg v st c hsev hma] at heq
      rcases hre : handleRecursiveMapping recurse c m.isArray
          (postTransformed m (preTransformed m v))
          (addRawIssues { st with path := st.path ++ [seg] }
            (fieldValidation m (preTransformed m v)).sink) with u | ⟨r3, st3⟩
      · simp only [hre] at heq
        exact Except.noConfusion heq
      · simp only [hre, Except.ok.injEq, Prod.mk.injEq] at heq
        rw [← heq.2]
        have h3 := handleRecursiveMapping_path recurse h c m.isArray
          (postTransformed m (preTransformed m v))
          (addRawIssues { st with path := st.path ++ [seg] }
            (fieldValidation m (preTransformed m v)).sink) r3 st3 hre
        rw [addRawIssues_path] at h3
        simp only [h3]
        exact List.dropLast_concat ..

theorem paramFallback_path (m : MappingMetadata) (index : Nat) (st : MapState) :
    (paramFallback m index st).2.path = st.path := by
  unfold paramFallback
  rcases m.isRequired with _ | _
  · simp only [Bool.false_eq_true, if_false]
    rcases m.defaultValue with _ | d
    · rfl
    · by_cases ht : jsTruthy d = true <;> simp [ht]
  · simp [addRawIssues_path]

theorem propFallback_path (m : MappingMetadata) (key : String) (st : MapState) :
    (propFallback m key st).2.path = st.path := by
  unfold propFallback
  rcases m.isRequired with _ | _
  · simp only [Bool.false_eq_true, if_false]
    rcases m.defaultValue with _ | d
    · rfl
    · by_cases ht : jsTruthy d = true <;> simp [ht]
  · simp [addRawIssues_path]

theorem processPropMapping_path (recurse : Recurse) (h : PreservesPath recurse)
    (m : MappingMetadata) (key : String) (data : JSValue) (st : MapState)
    (slot : Option RVal) (st1 : MapState)
    (heq : processPropMapping recurse m key data st = .ok (slot, st1)) :
    st1.path = st.path := by
  simp only [processPropMapping] at heq
  rcases hres : resolveAliases (ifEmpty m.aliases (.inl key)) data
    with u | ⟨⟩ | ⟨seg, v⟩
  · simp only [hres] at heq
    exact Except.noConfusion heq
  · simp only [hres] at heq
    have h2 : (propFallback m key st).2.path = st1.path :=
      congrArg (fun p => p.2.path) (Except.ok.inj heq)
    rw [← h2]
    exact propFallback_path m key st
  · simp only [hres] at heq
    rcases hpr : processResolved recurse m seg v st with u | ⟨slot0, stA⟩
    · simp only [hpr] at heq
      exact Except.noConfusion heq
    · have hA := processResolved_path recurse h m seg v st slot0 stA hpr
      rcases slot0 with _ | r
      · simp only [hpr] at heq
        have h2 : (propFallback m key stA).2.path = st1.path :=
          congrArg (fun p => p.2.path) (Except.ok.inj heq)
        rw [← h2, propFallback_path m key stA]
        exact hA
      · simp only [hpr, Except.ok.injEq, Prod.mk.injEq] at heq
        rw [← heq.2]
        exact hA

theorem processParamMapping_path (recurse : Recurse) (h : PreservesPath recurse)
    (m? : Option MappingMetadata) (index : Nat) (data : JSValue) (st : MapState)
    (slot : Option RVal) (st1 : MapState)
    (heq : processParamMapping recurse m? index data st = .ok (slot, st1)) :
    st1.path = st.path := by
  rcases m? with _ | m
  · simp only [processParamMapping] at heq
    rcases hres : resolveAliases (ifEmpty [] (.inr index)) data
      with u | ⟨⟩ | ⟨seg, v⟩
    · simp only [hres] at heq
      exact Except.noConfusion heq
    · simp only [hres, Except.ok.injEq, Prod.mk.injEq] at heq
      rw [← heq.2]
    · simp only [hres] at heq
      exact Except.noConfusion heq
  · simp only [processParamMapping] at heq
    rcases hres : resolveAliases (ifEmpty m.aliases (.inr index)) data
      with u | ⟨⟩ | ⟨seg, v⟩
    · simp only [hres] at heq
      exact Except.noConfusion heq
    · simp only [hres] at heq
      have h2 : (paramFallback m index st).2.path = st1.path :=
        congrArg (fun p => p.2.path) (Except.ok.inj heq)
      rw [← h2]
      exact paramFallback_path m index st
    · simp only [hres] at heq
      rcases hpr : processResolved recurse m seg v st with u | ⟨slot0, stA⟩
      · simp only [hpr] at heq
        exact Except.noConfusion heq
      · have hA := processResolved_path recurse h m seg v st slot0 stA hpr
        rcases slot0 with _ | r
        · simp only [hpr] at heq
          have h2 : (paramFallback m index stA).2.path = st1.path :=
            congrArg (fun p => p.2.path) (Except.ok.inj heq)
          rw [← h2, paramFallback_path m index stA]
          exact hA
        · simp only [hpr, Except.ok.injEq, Prod.mk.injEq] at heq
          rw [← heq.2]
          exact hA

theorem paramLoop_path (recurse : Recurse) (h : PreservesPath recurse)
    (ms : List (Option MappingMetadata)) (index : Nat) (data : JSValue)
    (st : MapState) (slots : List (Option RVal)) (st1 : MapState)
    (heq : paramLoop recurse ms index data st = .ok (slots, st1)) :
    st1.path = st.path := by
  induction ms generalizing index st slots st1 with
  | nil =>
      simp only [paramLoop, Except.ok.injEq, Prod.mk.injEq] at heq
      rw [← heq.2]
  | cons m? rest ih =>
      simp only [paramLoop] at heq
      rcases hp : processParamMapping recurse m? index data st with u | ⟨slot, stA⟩
      · simp only [hp] at heq
        exact Except.noConfusion heq
      · simp only [hp] at heq
        rcases hl : paramLoop recurse rest (index + 1) data stA with u | ⟨slots0, stB⟩
        · simp only [hl] at heq
          exact Except.noConfusion heq
        · simp only [hl, Except.ok.injEq, Prod.mk.injEq] at heq
          rw [← heq.2]
          rw [ih (index + 1) stA slots0 stB hl]
          exact processParamMapping_path recurse h m? index data st slot stA hp

theorem propLoop_path (recurse : Recurse) (h : PreservesPath recurse)
    (ps : List (String × MappingMetadata)) (data : JSValue)
    (st : MapState) (assigns : List (String × RVal)) (st1 : MapState)
    (heq : propLoop recurse ps data st = .ok (assigns, st1)) :
    st1.path = st.path := by
  induction ps generalizing st assigns st1 with
  | nil =>
      simp only [propLoop, Except.ok.injEq, Prod.mk.injEq] at heq
      rw [← heq.2]
  | cons p rest ih =>
      rcases p with ⟨key, m⟩
      simp only [propLoop] at heq
      rcases hp : processPropMapping recurse m key data st with u | ⟨slot, stA⟩
      · simp only [hp] at heq
        exact Except.noConfusion heq
      · simp only [hp] at heq
        rcases hl : propLoop recurse rest data stA with u | ⟨assigns0, stB⟩
        · simp only [hl] at heq
          exact Except.noConfusion heq
        · simp only [hl, Except.ok.injEq, Prod.mk.injEq] at heq
          rw [← heq.2]
          rw [ih stA assigns0 stB hl]
          exact processPropMapping_path recurse h m key data st slot stA hp

theorem buildInstanceF_path (recurse : Recurse) (h : PreservesPath recurse)
    (c : TypeDesc) (data : JSValue) (st : MapState) (r : RVal) (st1 : MapState)
    (heq : buildInstanceF recurse c data st = .ok (r, st1)) : st1.path = st.path := by
  simp only [buildInstanceF] at heq
  by_cases hn : isNullish data = true
  · simp only [hn, if_true, Except.ok.injEq, Prod.mk.injEq] at heq
    rw [← heq.2]
  · simp only [hn, Bool.false_eq_true, if_false] at heq
    have step1 : ∀ stP : List (Option RVal) × MapState,
        (match c.parameters with
         | some ms => paramLoop recurse ms 0 data st
         | none => .ok ([], st)) = .ok stP → stP.2.path = st.path := by
      intro stP hP
      rcases hcp : c.parameters with _ | ms
      · rw [hcp] at hP
        simp only [Except.ok.injEq] at hP
        rw [← hP]
      · rw [hcp] at hP
        rcases stP with ⟨args, stA⟩
        exact paramLoop_path recurse h ms 0 data st args stA hP
    rcases hPL : (match c.parameters with
        | some ms => paramLoop recurse ms 0 data st
        | none => .ok ([], st)) with u | ⟨args, stA⟩
    · simp only [hPL] at heq
      exact Except.noConfusion heq
    · simp only [hPL] at heq
      have hA : stA.path = st.path := step1 (args, stA) hPL
      have step2 : ∀ stQ : List (String × RVal) × MapState,
          (match c.properties with
           | some ps => propLoop recurse ps data stA
           | none => .ok ([], stA)) = .ok stQ → stQ.2.path = stA.path := by
        intro stQ hQ
        rcases hcq : c.properties with _ | ps
        · rw [hcq] at hQ
          simp only [Except.ok.injEq] at hQ
          rw [← hQ]
        · rw [hcq] at hQ
          rcases stQ with ⟨assigns, stB⟩
          exact propLoop_path recurse h ps data stA assigns stB hQ
      rcases hQL : (match c.properties with
          | some ps => propLoop recurse ps data stA
          | none => .ok ([], stA)) with u | ⟨assigns, stB⟩
      · simp only [hQL] at heq
        exact Except.noConfusion heq
      · simp only [hQL] at heq
        have hB : stB.path = stA.path := step2 (assigns, stB) hQL
        have hook1 : ∀ stX, (match c.mapDataHook with
            | some hk => addRawIssues stX (hk data)
            | none => stX).path = stX.path := by
          intro stX
          rcases c.mapDataHook with _ | hk
          · rfl
          · exact addRawIssues_path ..
        have hook2 : ∀ stX, (match c.validateHook with
            | some l => addRawIssues stX l
            | none => stX).path = stX.path := by
          intro stX
          rcases c.validateHook with _ | l
          · rfl
          · exact addRawIssues_path ..
        simp only [Except.ok.injEq, Prod.mk.injEq] at heq
        rw [← heq.2, hook2, hook1, hB, hA]

theorem internalCreateInstance_path (fuel : Nat) :
    PreservesPath (internalCreateInstance fuel) := by
  induction fuel with
  | zero =>
      intro c d s r s1 heq
      exact Except.noConfusion heq
  | succ n ih =>
      intro c d s r s1 heq
      exact buildInstanceF_path (internalCreateInstance n) ih c d s r s1 heq

/-- A property mapping with no aliases, validations, transforms, nesting,
requirement or default. -/
def plainMapping : MappingMetadata := .mk [] none [] none none false false none

/-- A decorated type with the single plain property foo. -/
def oneFieldDesc : TypeDesc := .mk none (some [("foo", plainMapping)]) none none

/-- C9: push and pop on the shared path stack are balanced on every
successful exit: a whole buildInstance call, the processing of a single
property or parameter mapping, and the element-wise mapping of an array
each leave the path stack exactly as they found it (for the
recursion-parameterized phases, whenever the recursion function itself
restores the path, which the tied recursion does at every fuel). -/
theorem path_stack_balance_spec :
    (∀ fuel, PreservesPath (internalCreateInstance fuel)) ∧
    (∀ recurse, PreservesPath recurse →
      ∀ m key data st out, processPropMapping recurse m key data st = .ok out →
        out.2.path = st.path) ∧
    (∀ recurse, PreservesPath recurse →
      ∀ m? index data st out, processParamMapping recurse m? index data st = .ok out →
        out.2.path = st.path) ∧
    (∀ recurse, PreservesPath recurse →
      ∀ c elems ix st out, mapElems recurse c elems ix st = .ok out →
        out.2.path = st.path) ∧
    (∀ recurse, PreservesPath recurse →
      ∀ c isArr data st out, handleRecursiveMapping recurse c isArr data st = .ok out →
        out.2.path = st.path) := by
  refine ⟨internalCreateInstance_path, ?_, ?_, ?_, ?_⟩
  · intro recurse h m key data st out heq
    exact processPropMapping_path recurse h m key data st out.1 out.2
      (by rw [heq])
  · intro recurse h m? index data st out heq
    exact processParamMapping_path recurse h m? index data st out.1 out.2
      (by rw [heq])
  · intro recurse h c elems ix st out heq
    exact mapElems_path recurse h c elems ix st out.1 out.2 (by rw [heq])
  · intro recurse h c isArr data st out heq
    exact handleRecursiveMapping_path recurse h c isArr data st out.1 out.2
      (by rw [heq])

/-- Closed instance of the balance theorem: a concrete one-field build
starting from the path stack root returns with the same stack. -/
theorem path_stack_balance_spec_witness :
    internalCreateInstance 1 oneFieldDesc (JSValue.obj [("foo", JSValue.str "v")])
        { path := [Sum.inl "root"], issues := [] }
      = .ok (.inst [] [("foo", .js (.str "v"))],
          { path := [Sum.inl "root"], issues := [] }) ∧
    ({ path := [Sum.inl "root"], issues := [] } : MapState).path = [Sum.inl "root"] := by
  refine ⟨rfl, ?_⟩
  exact path_stack_balance_spec.1 1 oneFieldDesc
    (JSValue.obj [("foo", JSValue.str "v")])
    { path := [Sum.inl "root"], issues := [] }
    (.inst [] [("foo", .js (.str "v"))])
    { path := [Sum.inl "root"], issues := [] } rfl

/-- A decorated type with a single required property foo (no aliases, no
validations). -/
def requiredFooDesc : TypeDesc :=
  .mk none (some [("foo", .mk [] none [] none none false true none)]) none none

/-- C1: when the metadata shape check passes and the build returns, a
supplied callback is invoked exactly once with the constructed instance
and the diagnostics state, and that same instance is returned with no
failure regardless of error-severity issues; without a callback, the
aggregate ValidationError is raised exactly when some accumulated issue
has error severity, carrying the error count, the message listing the
error messages, and the full diagnostics state — otherwise the instance
is returned. -/
theorem convert_callback_and_throw_spec (fuel : Nat)
    (statics : List (String × JSValue)) (c : TypeDesc) (data : JSValue)
    (r : RVal) (st : MapState)
    (hmeta : isDecoratedType statics = true)
    (hrun : internalCreateInstance fuel c data { path := [], issues := [] }
      = .ok (r, st)) :
    (convert fuel statics c data true
      = { result := .ok r, callbackCalls := [(r, st.issues)] }) ∧
    (convert fuel statics c data false =
      (if (st.issues.filter (fun iss => decide (iss.level = IssueLevel.error))).length ≠ 0 then
        { result := .error (.validation
            (st.issues.filter (fun iss => decide (iss.level = IssueLevel.error))).length
            ("Validation failed with " ++
              toString (st.issues.filter
                (fun iss => decide (iss.level = IssueLevel.error))).length ++
              " errors: " ++
              String.intercalate ","
                ((st.issues.filter (fun iss => decide (iss.level = IssueLevel.error))).map
                  (fun iss => iss.message)))
            st.issues)
          callbackCalls := [] }
      else { result := .ok r, callbackCalls := [] })) ∧
    ((convert fuel statics c data false).result = .ok r ↔
      ∀ iss ∈ st.issues, iss.level ≠ IssueLevel.error) := by
  have hbase : ∀ b, convert fuel statics c data b =
      (if b then { result := .ok r, callbackCalls := [(r, st.issues)] }
       else
        (if (st.issues.filter (fun iss => decide (iss.level = IssueLevel.error))).length ≠ 0 then
          { result := .error (.validation
              (st.issues.filter (fun iss => decide (iss.level = IssueLevel.error))).length
              ("Validation failed with " ++
                toString (st.issues.filter
                  (fun iss => decide (iss.level = IssueLevel.error))).length ++
                " errors: " ++
                String.intercalate ","
                  ((st.issues.filter (fun iss => decide (iss.level = IssueLevel.error))).map
                    (fun iss => iss.message)))
              st.issues)
            callbackCalls := [] }
        else { result := .ok r, callbackCalls := [] })) := by
    intro b
    unfold convert
    rw [hmeta, hrun]
    cases b <;> rfl
  refine ⟨(hbase true).trans (by rfl), (hbase false).trans (by rfl), ?_⟩
  rw [hbase false]
  by_cases he : (st.issues.filter (fun iss => decide (iss.level = IssueLevel.error))).length ≠ 0
  · rw [if_pos he]
    constructor
    · intro hcontra
      exact absurd hcontra (by simp)
    · intro hall
      exfalso
      apply he
      rw [List.length_eq_zero, List.filter_eq_nil_iff]
      intro a ha
      simp [hall a ha]
  · rw [if_neg he]
    constructor
    · intro _
      rw [Classical.not_not] at he
      rw [List.length_eq_zero, List.filter_eq_nil_iff] at he
      intro iss hiss
      have := he iss hiss
      simpa using this
    · intro _
      rfl

/-- Closed instance of the convert contract: a required property is
missing, so the callback path returns the instance and reports the one
error, while the no-callback path raises the aggregate ValidationError
naming the count and message. -/
theorem convert_callback_and_throw_spec_witness :
    convert 1 [] requiredFooDesc (JSValue.obj []) true
      = { result := .ok (.inst [] [])
          callbackCalls := [(.inst [] [],
            [⟨"", IssueLevel.error, "Required property or field not found: foo"⟩])] } ∧
    convert 1 [] requiredFooDesc (JSValue.obj []) false
      = { result := .error (.validation 1
            "Validation failed with 1 errors: Required property or field not found: foo"
            [⟨"", IssueLevel.error, "Required property or field not found: foo"⟩])
          callbackCalls := [] } := by
  have h := convert_callback_and_throw_spec 1 [] requiredFooDesc (JSValue.obj [])
    (.inst [] [])
    { path := []
      issues := [⟨"", IssueLevel.error, "Required property or field not found: foo"⟩] }
    rfl rfl
  exact ⟨h.1.trans rfl, h.2.1.trans rfl⟩

/-- C10 (code bug): isDecoratedType checks the parameters collection
under a misspelled static key, so a constructor declaring a non-sequence
value under the real parameters key passes the gate and convert proceeds
to construct an instance instead of raising the structural metadata
error; the properties-side check and the check under the (never
populated) misspelled key do reject non-collections, showing the intended
behavior the claim describes. -/
theorem malformed_parameters_not_rejected :
    isDecoratedType [("_parameters", JSValue.num 5)] = true ∧
    convert 1 [("_parameters", JSValue.num 5)] (.mk none none none none)
        (JSValue.obj []) false
      = { result := .ok (.inst [] []), callbackCalls := [] } ∧
    arrayOrUnspecified [("_parameters", JSValue.num 5)] "_parameters" = false ∧
    isDecoratedType [("_parmeters", JSValue.num 5)] = false ∧
    isDecoratedType [("_properties", JSValue.num 5)] = false :=
  ⟨rfl, rfl, rfl, rfl, rfl⟩
